import Mathlib

/-!
# Verification of the quant_modules shared-memory channel and trading clients

This development gives a shallow embedding, in Lean 4, of the core of the
`quant_modules` repository: the seqlock-style shared-memory channel
(`helpers.py`, the `_read_order_from_shm` / `write_order_request` /
`_clear_order_shm` functions of `binance_ws_orders.py` and
`bybit_ws_orders.py`, and the writer in `orderbook.py`), the signed request
codecs (`_sign`, `_build_order_params`, `_auth_signature`), the
request/response correlation loops of both WebSocket clients, and the order
runner loops.  Python integers are modelled as `Int`/`Nat`, byte buffers as
`List Nat`, fallible code as `Option`/`Except`.  The msgpack serialization
used for channel payloads is modelled for the record shapes the repository
writes (string-keyed maps with string and boolean values), following the
msgpack wire format that `msgpack.packb`/`msgpack.unpackb` implement.
-/

/-! ## Msgpack model

Payloads written to shared memory are `msgpack.packb(order)` for a dict with
string keys.  We model records as association lists of byte-string keys to
values, with values being byte strings or booleans, and implement the msgpack
wire format for exactly these shapes: fixstr/str8/str16/str32 for strings,
0xc2/0xc3 for booleans, fixmap/map16/map32 for the top-level map.  Encoding
returns `none` where `packb` would raise (object too large for the format).
Decoding returns `none` where `unpackb` would raise.
-/

/-- A msgpack value as used by the repository's records: a (byte-)string or a
boolean. -/
inductive MpVal where
  | str (s : List Nat)
  | bool (b : Bool)
deriving DecidableEq, Repr

/-- A record written to the channel: a string-keyed map, kept as an
association list in insertion order (Python dicts preserve insertion
order). -/
abbrev MpRec := List (List Nat × MpVal)

/-- Encode a msgpack string: fixstr (≤ 31), str8 (≤ 255), str16 (≤ 65535) or
str32; `none` if the length exceeds the str32 limit (where `packb`
raises). -/
def encStr (s : List Nat) : Option (List Nat) :=
  let L := s.length
  if L ≤ 31 then some ((160 + L) :: s)
  else if L ≤ 255 then some (217 :: L :: s)
  else if L ≤ 65535 then some (218 :: L / 256 :: L % 256 :: s)
  else if L ≤ 4294967295 then
    some (219 :: L / 16777216 % 256 :: L / 65536 % 256 :: L / 256 % 256 :: L % 256 :: s)
  else none

/-- Encode a msgpack value (string or boolean). -/
def encVal : MpVal → Option (List Nat)
  | .str s => encStr s
  | .bool false => some [194]
  | .bool true => some [195]

/-- Encode the key/value pairs of a map, in order. -/
def encPairs : MpRec → Option (List Nat)
  | [] => some []
  | (k, v) :: rest =>
    match encStr k, encVal v, encPairs rest with
    | some ek, some ev, some er => some (ek ++ (ev ++ er))
    | _, _, _ => none

/-- Encode a msgpack map header: fixmap (≤ 15), map16 (≤ 65535) or map32;
`none` beyond the map32 limit. -/
def encMapHeader (n : Nat) : Option (List Nat) :=
  if n ≤ 15 then some [128 + n]
  else if n ≤ 65535 then some [222, n / 256, n % 256]
  else if n ≤ 4294967295 then
    some [223, n / 16777216 % 256, n / 65536 % 256, n / 256 % 256, n % 256]
  else none

/-- Model of `msgpack.packb` on the repository's record shapes. -/
def packb (rec : MpRec) : Option (List Nat) :=
  match encMapHeader rec.length, encPairs rec with
  | some h, some body => some (h ++ body)
  | _, _ => none

/-- Decode a msgpack string, returning the string and the remaining bytes. -/
def decStr : List Nat → Option (List Nat × List Nat)
  | [] => none
  | b :: rest =>
    if 160 ≤ b ∧ b ≤ 191 then
      let L := b - 160
      if L ≤ rest.length then some (rest.take L, rest.drop L) else none
    else if b = 217 then
      match rest with
      | L :: r => if L ≤ r.length then some (r.take L, r.drop L) else none
      | [] => none
    else if b = 218 then
      match rest with
      | b1 :: b0 :: r =>
        let L := b1 * 256 + b0
        if L ≤ r.length then some (r.take L, r.drop L) else none
      | _ => none
    else if b = 219 then
      match rest with
      | b3 :: b2 :: b1 :: b0 :: r =>
        let L := ((b3 * 256 + b2) * 256 + b1) * 256 + b0
        if L ≤ r.length then some (r.take L, r.drop L) else none
      | _ => none
    else none

/-- Decode a msgpack value (string or boolean), returning the value and the
remaining bytes. -/
def decVal : List Nat → Option (MpVal × List Nat)
  | [] => none
  | b :: rest =>
    if b = 194 then some (.bool false, rest)
    else if b = 195 then some (.bool true, rest)
    else (decStr (b :: rest)).map fun p => (.str p.1, p.2)

/-- Decode `n` key/value pairs. -/
def decPairs : Nat → List Nat → Option (MpRec × List Nat)
  | 0, l => some ([], l)
  | n + 1, l =>
    match decStr l with
    | none => none
    | some (k, l1) =>
      match decVal l1 with
      | none => none
      | some (v, l2) =>
        match decPairs n l2 with
        | none => none
        | some (r, l3) => some ((k, v) :: r, l3)

/-- Decode a msgpack map header, returning the pair count and remaining
bytes. -/
def decMapHeader : List Nat → Option (Nat × List Nat)
  | [] => none
  | b :: rest =>
    if 128 ≤ b ∧ b ≤ 143 then some (b - 128, rest)
    else if b = 222 then
      match rest with
      | b1 :: b0 :: r => some (b1 * 256 + b0, r)
      | _ => none
    else if b = 223 then
      match rest with
      | b3 :: b2 :: b1 :: b0 :: r => some (((b3 * 256 + b2) * 256 + b1) * 256 + b0, r)
      | _ => none
    else none

/-- Model of `msgpack.unpackb` on the repository's record shapes: exactly one
map must consume the whole input, else `unpackb` raises (modelled as
`none`). -/
def unpackb (l : List Nat) : Option MpRec :=
  match decMapHeader l with
  | some (n, rest) =>
    match decPairs n rest with
    | some (r, []) => some r
    | _ => none
  | none => none

/-! ### Msgpack roundtrip lemmas -/

theorem decStr_encStr {s e : List Nat} (h : encStr s = some e) (r : List Nat) :
    decStr (e ++ r) = some (s, r) := by
  unfold encStr at h
  by_cases h31 : s.length ≤ 31
  · simp only [h31, if_true] at h
    cases h
    simp only [List.cons_append, decStr]
    have hb : 160 ≤ 160 + s.length ∧ 160 + s.length ≤ 191 := by omega
    simp only [hb, if_true, and_self]
    have hL : 160 + s.length - 160 = s.length := by omega
    rw [hL]
    have hlen : s.length ≤ (s ++ r).length := by simp
    simp only [hlen, if_true]
    rw [List.take_left, List.drop_left]
  · by_cases h255 : s.length ≤ 255
    · simp only [h31, h255, if_false, if_true] at h
      cases h
      simp only [List.cons_append, decStr]
      have hb : ¬(160 ≤ 217 ∧ 217 ≤ 191) := by omega
      simp only [hb, if_false, if_true]
      have hlen : s.length ≤ (s ++ r).length := by simp
      simp only [hlen, if_true]
      rw [List.take_left, List.drop_left]
    · by_cases h16 : s.length ≤ 65535
      · simp only [h31, h255, h16, if_false, if_true] at h
        cases h
        simp only [List.cons_append, decStr]
        have hb : ¬(160 ≤ 218 ∧ 218 ≤ 191) := by omega
        have hb2 : ¬((218 : Nat) = 217) := by omega
        simp only [hb, hb2, if_false, if_true]
        have hL : s.length / 256 * 256 + s.length % 256 = s.length := by omega
        rw [hL]
        have hlen : s.length ≤ (s ++ r).length := by simp
        simp only [hlen, if_true]
        rw [List.take_left, List.drop_left]
      · by_cases h32 : s.length ≤ 4294967295
        · simp only [h31, h255, h16, h32, if_false, if_true] at h
          cases h
          simp only [List.cons_append, decStr]
          have hb : ¬(160 ≤ 219 ∧ 219 ≤ 191) := by omega
          have hb2 : ¬((219 : Nat) = 217) := by omega
          have hb3 : ¬((219 : Nat) = 218) := by omega
          simp only [hb, hb2, hb3, if_false, if_true]
          have hL : ((s.length / 16777216 % 256 * 256 + s.length / 65536 % 256) * 256 +
              s.length / 256 % 256) * 256 + s.length % 256 = s.length := by omega
          rw [hL]
          have hlen : s.length ≤ (s ++ r).length := by simp
          simp only [hlen, if_true]
          rw [List.take_left, List.drop_left]
        · simp only [h31, h255, h16, h32, if_false] at h
          exact Option.noConfusion h

theorem encStr_head {s e : List Nat} (h : encStr s = some e) :
    ∃ b t, e = b :: t ∧ b ≠ 194 ∧ b ≠ 195 := by
  unfold encStr at h
  by_cases h31 : s.length ≤ 31
  · simp only [h31, if_true] at h
    cases h
    exact ⟨160 + s.length, s, rfl, by omega, by omega⟩
  · by_cases h255 : s.length ≤ 255
    · simp only [h31, h255, if_false, if_true] at h
      cases h
      exact ⟨217, _, rfl, by omega, by omega⟩
    · by_cases h16 : s.length ≤ 65535
      · simp only [h31, h255, h16, if_false, if_true] at h
        cases h
        exact ⟨218, _, rfl, by omega, by omega⟩
      · by_cases h32 : s.length ≤ 4294967295
        · simp only [h31, h255, h16, h32, if_false, if_true] at h
          cases h
          exact ⟨219, _, rfl, by omega, by omega⟩
        · simp only [h31, h255, h16, h32, if_false] at h
          exact Option.noConfusion h

theorem decVal_encVal {v : MpVal} {e : List Nat} (h : encVal v = some e) (r : List Nat) :
    decVal (e ++ r) = some (v, r) := by
  cases v with
  | str s =>
    simp only [encVal] at h
    obtain ⟨b, t, he, hb1, hb2⟩ := encStr_head h
    subst he
    simp only [List.cons_append, decVal, hb1, hb2, if_false]
    rw [← List.cons_append]
    rw [decStr_encStr h r]
    rfl
  | bool b =>
    cases b <;> simp only [encVal] at h <;> cases h <;> rfl

theorem decPairs_encPairs {rec : MpRec} {body : List Nat} (h : encPairs rec = some body)
    (r : List Nat) : decPairs rec.length (body ++ r) = some (rec, r) := by
  induction rec generalizing body with
  | nil =>
    simp only [encPairs] at h
    cases h
    rfl
  | cons kv rest ih =>
    obtain ⟨k, v⟩ := kv
    simp only [encPairs] at h
    cases hek : encStr k with
    | none => rw [hek] at h; exact Option.noConfusion h
    | some ek =>
      cases hev : encVal v with
      | none => rw [hek, hev] at h; exact Option.noConfusion h
      | some ev =>
        cases her : encPairs rest with
        | none => rw [hek, hev, her] at h; exact Option.noConfusion h
        | some er =>
          rw [hek, hev, her] at h
          cases h
          simp only [List.length_cons, decPairs, List.append_assoc]
          simp only [decStr_encStr hek, decVal_encVal hev, ih her]

theorem decMapHeader_encMapHeader {n : Nat} {h : List Nat}
    (he : encMapHeader n = some h) (r : List Nat) : decMapHeader (h ++ r) = some (n, r) := by
  unfold encMapHeader at he
  by_cases h15 : n ≤ 15
  · simp only [h15, if_true] at he
    cases he
    simp only [List.cons_append, List.nil_append, decMapHeader]
    have hb : 128 ≤ 128 + n ∧ 128 + n ≤ 143 := by omega
    simp only [hb, if_true, and_self]
    have : 128 + n - 128 = n := by omega
    rw [this]
  · by_cases h16 : n ≤ 65535
    · simp only [h15, h16, if_false, if_true] at he
      cases he
      simp only [List.cons_append, List.nil_append, decMapHeader]
      have hb : ¬(128 ≤ 222 ∧ 222 ≤ 143) := by omega
      simp only [hb, if_false, if_true]
      have : n / 256 * 256 + n % 256 = n := by omega
      rw [this]
    · by_cases h32 : n ≤ 4294967295
      · simp only [h15, h16, h32, if_false, if_true] at he
        cases he
        simp only [List.cons_append, List.nil_append, decMapHeader]
        have hb : ¬(128 ≤ 223 ∧ 223 ≤ 143) := by omega
        have hb2 : ¬((223 : Nat) = 222) := by omega
        simp only [hb, hb2, if_false, if_true]
        have : ((n / 16777216 % 256 * 256 + n / 65536 % 256) * 256 + n / 256 % 256) * 256 +
            n % 256 = n := by omega
        rw [this]
      · simp only [h15, h16, h32, if_false] at he
        exact Option.noConfusion he

theorem packb_parts {rec : MpRec} {p : List Nat} (h : packb rec = some p) :
    ∃ hd body, encMapHeader rec.length = some hd ∧ encPairs rec = some body ∧
      p = hd ++ body := by
  unfold packb at h
  cases hhd : encMapHeader rec.length with
  | none => rw [hhd] at h; exact Option.noConfusion h
  | some hd =>
    cases hbody : encPairs rec with
    | none => rw [hhd, hbody] at h; exact Option.noConfusion h
    | some body =>
      rw [hhd, hbody] at h
      cases h
      exact ⟨hd, body, rfl, rfl, rfl⟩

/-- Msgpack roundtrip: decoding a successfully encoded record gives back
exactly that record. -/
theorem unpackb_packb {rec : MpRec} {p : List Nat} (h : packb rec = some p) :
    unpackb p = some rec := by
  obtain ⟨hd, body, hhd, hbody, hp⟩ := packb_parts h
  subst hp
  unfold unpackb
  rw [show hd ++ body = hd ++ (body ++ []) by simp]
  rw [decMapHeader_encMapHeader hhd]
  simp only [decPairs_encPairs hbody]

/-- A successful `packb` always produces at least one byte (the map
header). -/
theorem packb_length_pos {rec : MpRec} {p : List Nat} (h : packb rec = some p) :
    0 < p.length := by
  obtain ⟨hd, body, hhd, hbody, hp⟩ := packb_parts h
  subst hp
  unfold encMapHeader at hhd
  by_cases h15 : rec.length ≤ 15
  · simp only [h15, if_true] at hhd; cases hhd; simp
  · by_cases h16 : rec.length ≤ 65535
    · simp only [h15, h16, if_false, if_true] at hhd; cases hhd; simp
    · by_cases h32 : rec.length ≤ 4294967295
      · simp only [h15, h16, h32, if_false, if_true] at hhd; cases hhd; simp
      · simp only [h15, h16, h32, if_false] at hhd
        exact Option.noConfusion hhd

/-! ## The seqlock channel buffer

The shared-memory region (`helpers.py`: `VERSION_OFFSET = 0`, `SIZE_OFFSET =
8`, `PAYLOAD_OFFSET = 12`) holds a signed 64-bit `version`, a signed 32-bit
`size` and a payload region.  We model the three header fields and the
payload region directly; `maxPayload` stands for the `PAYLOAD_MAX` constant
(imported from `helpers` by every module; its numeric value is not fixed by
the protocol, so definitions take it as a parameter).

A reader performs four separate accesses to shared memory (`version`, then
`size`, then the payload bytes, then `version` again); a concurrent writer
may change the region between any two of them, so the read models are
parameterized by the four buffer states observed at those four access
points.  A read with no interleaving writer observes the same state four
times.
-/

/-- The channel buffer: `version` (int64), `size` (int32), and the payload
region bytes. -/
structure Buffer where
  version : Int
  size : Int
  payload : List Nat
deriving DecidableEq, Repr

/-- `_clear_order_shm` (identical in `binance_ws_orders.py` and
`bybit_ws_orders.py`): set `version` and `payload_size` to 0.  The payload
region is left untouched. -/
def clear_order_shm (buf : Buffer) : Buffer :=
  { buf with version := 0, size := 0 }

/-- The intermediate buffer states produced by `write_order_request`
(identical in `binance_ws_orders.py` lines 327-331 and `bybit_ws_orders.py`
lines 261-265): `version := 1`; `payload_size := len(payload)`; copy the
payload bytes; `version := 2`.  Returns `none` when `packb` fails or the
payload exceeds `maxPayload` (the `ValueError` branch; nothing is
written). -/
def write_order_states (maxPayload : Nat) (order : MpRec) (buf : Buffer) :
    Option (List Buffer) :=
  match packb order with
  | none => none
  | some payload =>
    if maxPayload < payload.length then none
    else
      let b1 : Buffer := { buf with version := 1 }
      let b2 : Buffer := { b1 with size := (payload.length : Int) }
      let b3 : Buffer := { b2 with payload := payload ++ buf.payload.drop payload.length }
      let b4 : Buffer := { b3 with version := 2 }
      some [b1, b2, b3, b4]

/-- `write_order_request`: the buffer state after a completed write (the last
state of `write_order_states`). -/
def write_order_request (maxPayload : Nat) (order : MpRec) (buf : Buffer) :
    Option Buffer :=
  match packb order with
  | none => none
  | some payload =>
    if maxPayload < payload.length then none
    else some { version := 2, size := (payload.length : Int),
                payload := payload ++ buf.payload.drop payload.length }

/-- `_read_order_from_shm` (identical in `binance_ws_orders.py` lines 290-303
and `bybit_ws_orders.py` lines 226-239).  `b1`..`b4` are the buffer states at
the four shared-memory accesses.  `Except.ok none` models the `return None`
("not ready") paths; `Except.error ()` models an exception escaping
(`msgpack.unpackb` raising on bytes that are not a valid record).  The
function is total: it never waits for a writer. -/
def read_order_from_shm (maxPayload : Nat) (b1 b2 b3 b4 : Buffer) :
    Except Unit (Option MpRec) :=
  let v1 := b1.version
  if v1 % 2 ≠ 0 then .ok none
  else
    let size := b2.size
    if ¬(0 < size ∧ size ≤ (maxPayload : Int)) then .ok none
    else
      let data := b3.payload.take size.toNat
      let v2 := b4.version
      if v1 ≠ v2 ∨ v2 % 2 ≠ 0 then .ok none
      else
        match unpackb data with
        | none => .error ()
        | some rec => .ok (some rec)

/-- `_read_order_from_shm` with no interleaving writer: all four accesses
observe the same buffer state. -/
def read_order_static (maxPayload : Nat) (buf : Buffer) : Except Unit (Option MpRec) :=
  read_order_from_shm maxPayload buf buf buf buf

/-- One iteration of the `while True` loop of `read_snapshot` in
`helpers.py`.  `none` means the iteration neither returned nor raised (the
loop retries: odd `v1`, or `v1 ≠ v2`, or odd `v2`); `some (.ok r)` models
`return msgpack.unpackb(data)`; `some (.error ())` models `unpackb`
raising.  Note this reader has no bound check on `size` at all. -/
def read_snapshot_iter (b1 b2 b3 b4 : Buffer) : Option (Except Unit MpRec) :=
  let v1 := b1.version
  if v1 % 2 = 1 then none
  else
    let size := b2.size
    let data := b3.payload.take size.toNat
    let v2 := b4.version
    if v1 = v2 ∧ v2 % 2 = 0 then
      some ((unpackb data).elim (Except.error ()) Except.ok)
    else none

/-- One `read_snapshot` iteration against an unchanging buffer. -/
def read_snapshot_static (buf : Buffer) : Option (Except Unit MpRec) :=
  read_snapshot_iter buf buf buf buf

/-- `Orderbook.stream_orderbook` (orderbook.py lines 54-60): the snapshot
writer keeps a private counter `self._version` (starting at 0) and, when the
payload fits, increments it (making it odd), stores it, writes size and
payload, increments it again (making it even) and stores it.  Returns the new
counter and the successive buffer states (the buffer is untouched when the
payload is too large: the write is silently skipped). -/
def stream_orderbook_states (maxPayload : Nat) (v : Int) (payload : List Nat)
    (buf : Buffer) : Int × List Buffer :=
  if payload.length ≤ maxPayload then
    let b1 : Buffer := { buf with version := v + 1 }
    let b2 : Buffer := { b1 with size := (payload.length : Int) }
    let b3 : Buffer := { b2 with payload := payload ++ buf.payload.drop payload.length }
    let b4 : Buffer := { b3 with version := v + 2 }
    (v + 2, [b1, b2, b3, b4])
  else (v, [])

/-! ## SHA-256 and HMAC

`binance_ws_orders._sign` and `bybit_ws_orders._auth_signature` call
`hmac.new(secret, msg, sha256).hexdigest()`.  We implement SHA-256 (FIPS
180-4) and HMAC (RFC 2104) over byte lists, with 32-bit words as `Nat`
truncated modulo `2^32`, and UTF-8 encoding of strings, modelling
`str.encode()`. -/

/-- Truncate to a 32-bit word. -/
def w32 (n : Nat) : Nat := n % 4294967296

/-- Rotate a 32-bit word right by `n` bits. -/
def rotr32 (x n : Nat) : Nat := w32 ((x >>> n) ||| (x <<< (32 - n)))

/-- Bitwise complement of a 32-bit word. -/
def not32 (x : Nat) : Nat := x ^^^ 4294967295

def sha256_ch (e f g : Nat) : Nat := (e &&& f) ^^^ (not32 e &&& g)

def sha256_maj (a b c : Nat) : Nat := (a &&& b) ^^^ (a &&& c) ^^^ (b &&& c)

def sha256_bigS0 (a : Nat) : Nat := rotr32 a 2 ^^^ rotr32 a 13 ^^^ rotr32 a 22

def sha256_bigS1 (e : Nat) : Nat := rotr32 e 6 ^^^ rotr32 e 11 ^^^ rotr32 e 25

def sha256_smallS0 (x : Nat) : Nat := rotr32 x 7 ^^^ rotr32 x 18 ^^^ (x >>> 3)

def sha256_smallS1 (x : Nat) : Nat := rotr32 x 17 ^^^ rotr32 x 19 ^^^ (x >>> 10)

/-- The SHA-256 round constants (FIPS 180-4 §4.2.2, written in decimal). -/
def sha256_k : List Nat :=
  [1116352408, 1899447441, 3049323471, 3921009573, 961987163,
   1508970993, 2453635748, 2870763221, 3624381080, 310598401,
   607225278, 1426881987, 1925078388, 2162078206, 2614888103,
   3248222580, 3835390401, 4022224774, 264347078, 604807628,
   770255983, 1249150122, 1555081692, 1996064986, 2554220882,
   2821834349, 2952996808, 3210313671, 3336571891, 3584528711,
   113926993, 338241895, 666307205, 773529912, 1294757372,
   1396182291, 1695183700, 1986661051, 2177026350, 2456956037,
   2730485921, 2820302411, 3259730800, 3345764771, 3516065817,
   3600352804, 4094571909, 275423344, 430227734, 506948616,
   659060556, 883997877, 958139571, 1322822218, 1537002063,
   1747873779, 1955562222, 2024104815, 2227730452, 2361852424,
   2428436474, 2756734187, 3204031479, 3329325298]

/-- The SHA-256 initial hash value (FIPS 180-4 §5.3.3, written in decimal). -/
def sha256_h0 : List Nat :=
  [1779033703, 3144134277, 1013904242, 2773480762,
   1359893119, 2600822924, 528734635, 1541459225]

/-- Group bytes into big-endian 32-bit words. -/
def bytesToWords : List Nat → List Nat
  | a :: b :: c :: d :: rest =>
    (((a * 256 + b) * 256 + c) * 256 + d) :: bytesToWords rest
  | _ => []

/-- A big-endian 32-bit word as four bytes. -/
def wordBytes (x : Nat) : List Nat :=
  [x / 16777216 % 256, x / 65536 % 256, x / 256 % 256, x % 256]

/-- A length as 8 big-endian bytes. -/
def lenBytes8 (n : Nat) : List Nat :=
  [n / 72057594037927936 % 256, n / 281474976710656 % 256,
   n / 1099511627776 % 256, n / 4294967296 % 256,
   n / 16777216 % 256, n / 65536 % 256, n / 256 % 256, n % 256]

/-- Extend the 16-word message schedule `n` more times. -/
def sha256_extend : Nat → List Nat → List Nat
  | 0, ws => ws
  | n + 1, ws =>
    let i := ws.length
    let w := w32 (ws.getD (i - 16) 0 + sha256_smallS0 (ws.getD (i - 15) 0) +
                  ws.getD (i - 7) 0 + sha256_smallS1 (ws.getD (i - 2) 0))
    sha256_extend n (ws ++ [w])

/-- One SHA-256 round on the 8-word working state, for a (constant, schedule
word) pair. -/
def sha256_round (st : List Nat) (kw : Nat × Nat) : List Nat :=
  match st with
  | [a, b, c, d, e, f, g, h] =>
    let t1 := w32 (h + sha256_bigS1 e + sha256_ch e f g + kw.1 + kw.2)
    let t2 := w32 (sha256_bigS0 a + sha256_maj a b c)
    [w32 (t1 + t2), a, b, c, w32 (d + t1), e, f, g]
  | st => st

/-- Process one 64-byte block. -/
def sha256_compress (hs : List Nat) (block : List Nat) : List Nat :=
  let ws := sha256_extend 48 (bytesToWords block)
  let st := (sha256_k.zip ws).foldl sha256_round hs
  (hs.zip st).map fun p => w32 (p.1 + p.2)

/-- Split a list into 64-byte chunks. -/
def chunks64 (l : List Nat) : List (List Nat) :=
  if h : l = [] then []
  else l.take 64 :: chunks64 (l.drop 64)
termination_by l.length
decreasing_by
  simp only [List.length_drop]
  have : 0 < l.length := List.length_pos.mpr h
  omega

/-- SHA-256 of a byte list. -/
def sha256 (msg : List Nat) : List Nat :=
  let padZeros := (119 - msg.length % 64) % 64
  let padded := msg ++ 128 :: List.replicate padZeros 0 ++ lenBytes8 (8 * msg.length)
  let hs := (chunks64 padded).foldl sha256_compress sha256_h0
  (hs.map wordBytes).flatten

/-- HMAC-SHA256 (RFC 2104), as `hmac.new(key, msg, sha256).digest()`. -/
def hmac_sha256 (key msg : List Nat) : List Nat :=
  let k0 := if 64 < key.length then sha256 key else key
  let k := k0 ++ List.replicate (64 - k0.length) 0
  sha256 ((k.map (· ^^^ 92)) ++ sha256 ((k.map (· ^^^ 54)) ++ msg))

/-- A nibble as a lowercase hex character (digits, then `a`-`f`). -/
def hexChar (n : Nat) : Char :=
  if n < 10 then Char.ofNat (48 + n) else Char.ofNat (87 + n)

/-- Lowercase hex string of a byte list, as `.hexdigest()`. -/
def bytesToHex (bytes : List Nat) : String :=
  String.mk (bytes.flatMap fun b => [hexChar (b / 16), hexChar (b % 16)])

/-- The UTF-8 bytes of one character. -/
def utf8Char (c : Char) : List Nat :=
  let n := c.toNat
  if n < 128 then [n]
  else if n < 2048 then [192 + n / 64, 128 + n % 64]
  else if n < 65536 then [224 + n / 4096, 128 + n / 64 % 64, 128 + n % 64]
  else [240 + n / 262144, 128 + n / 4096 % 64, 128 + n / 64 % 64, 128 + n % 64]

/-- `str.encode()`: the UTF-8 bytes of a string. -/
def strBytes (s : String) : List Nat := s.data.flatMap utf8Char

/-- `hmac.new(secret.encode(), msg.encode(), hashlib.sha256).hexdigest()`. -/
def hmac_sha256_hex (secret msg : String) : String :=
  bytesToHex (hmac_sha256 (strBytes secret) (strBytes msg))

/-! ## Signed request codecs

`binance_ws_orders.py`: `_sign` serializes the params dict as `k=v` pairs
joined by `&` over `sorted(params.items())` and HMAC-SHA256-signs it;
`_request` merges in `apiKey` and then assigns the `signature` field (the
right-hand side is evaluated first, so the signature is computed over the
dict before the `signature` key exists).  Param dict values are modelled by
`JVal`; `f"{k}={v}"` stringifies them with Python `str`. -/

/-- A value stored in a params/args dict: string, integer or boolean. -/
inductive JVal where
  | s (v : String)
  | i (v : Int)
  | b (v : Bool)
deriving DecidableEq, Repr

/-- Python `str()` of a `JVal`, as used by `f"{k}={v}"`. -/
def jshow : JVal → String
  | .s v => v
  | .i v => toString v
  | .b v => if v then "True" else "False"

/-- Python `str.upper()` (ASCII fold, which is what the repository's inputs
use). -/
def str_upper (s : String) : String := String.mk (s.data.map Char.toUpper)

/-- Python `str.strip()`: remove leading and trailing whitespace. -/
def str_strip (s : String) : String :=
  String.mk (((s.data.dropWhile Char.isWhitespace).reverse.dropWhile
    Char.isWhitespace).reverse)

/-- Python dict item assignment `d[k] = v` (and dict-merge `{**d, k: v}`):
replace in place if the key exists, else append. -/
def dict_set (l : List (String × JVal)) (k : String) (v : JVal) :
    List (String × JVal) :=
  if l.any (fun kv => kv.1 == k) then
    l.map (fun kv => if kv.1 == k then (k, v) else kv)
  else l ++ [(k, v)]

/-- Python dict lookup `d.get(k)` on the association-list model. -/
def dict_lookup (l : List (String × JVal)) (k : String) : Option JVal :=
  (l.find? (fun kv => kv.1 == k)).map (·.2)

/-- Ordering used by Python's `sorted(params.items())`: tuples compare by
first component (keys are distinct in a dict, so ties do not occur). -/
def key_le (a b : String × JVal) : Prop := a.1 ≤ b.1

instance : DecidableRel key_le := fun a b => inferInstanceAs (Decidable (a.1 ≤ b.1))

instance : IsTotal (String × JVal) key_le := ⟨fun a b => le_total a.1 b.1⟩

instance : IsTrans (String × JVal) key_le := ⟨fun _ _ _ h1 h2 => le_trans h1 h2⟩

/-- `sorted(params.items())`. -/
def sorted_items (l : List (String × JVal)) : List (String × JVal) :=
  List.insertionSort key_le l

/-- The query string `"&".join(f"{k}={v}" for k, v in sorted(params.items()))`. -/
def query_string (params : List (String × JVal)) : String :=
  String.intercalate "&" ((sorted_items params).map fun kv => kv.1 ++ "=" ++ jshow kv.2)

/-- `_sign(params, secret)` from `binance_ws_orders.py`. -/
def sign_query (params : List (String × JVal)) (secret : String) : String :=
  hmac_sha256_hex secret (query_string params)

/-- The params dict sent by `BinanceFuturesWSClient._request`:
`params = {**params, "apiKey": key}; params["signature"] = _sign(params, secret)`. -/
def request_params (params : List (String × JVal)) (apiKey secret : String) :
    List (String × JVal) :=
  let p := dict_set params "apiKey" (.s apiKey)
  dict_set p "signature" (.s (sign_query p secret))

/-- `_build_order_params` from `binance_ws_orders.py`: the flat parameter
mapping, in dict insertion order.  `timestamp` stands for
`int(time.time() * 1000)`. -/
def build_order_params (symbol side order_type quantity : String)
    (price time_in_force : Option String) (reduce_only : Bool)
    (position_side new_client_order_id : Option String)
    (recv_window timestamp : Int) : List (String × JVal) :=
  [("symbol", .s symbol), ("side", .s (str_upper side)), ("type", .s order_type),
   ("quantity", .s quantity), ("timestamp", .i timestamp)]
  ++ (if recv_window ≠ 5000 then [("recvWindow", .i recv_window)] else [])
  ++ (if reduce_only then [("reduceOnly", .s "true")] else [])
  ++ (match position_side with
      | some ps => [("positionSide", JVal.s (str_upper ps))]
      | none => [])
  ++ (match new_client_order_id with
      | some cid => [("newClientOrderId", JVal.s cid)]
      | none => [])
  ++ (match price with | some pr => [("price", JVal.s pr)] | none => [])
  ++ (match time_in_force with | some tif => [("timeInForce", JVal.s tif)] | none => [])

/-- The argument dict built by `BybitFuturesWSClient.place_market_order`. -/
def bybit_market_args (symbol side qty category : String) (reduce_only : Bool)
    (position_idx : Option Int) (order_link_id : Option String) :
    List (String × JVal) :=
  let side2 := if str_upper side = "BUY" then "Buy" else "Sell"
  [("category", .s category), ("symbol", .s symbol), ("side", .s side2),
   ("orderType", .s "Market"), ("qty", .s qty)]
  ++ (if reduce_only then [("reduceOnly", .b true)] else [])
  ++ (match position_idx with | some pi => [("positionIdx", JVal.i pi)] | none => [])
  ++ (match order_link_id with | some oid => [("orderLinkId", JVal.s oid)] | none => [])

/-- The argument dict built by `BybitFuturesWSClient.place_limit_order`. -/
def bybit_limit_args (symbol side qty price category time_in_force : String)
    (reduce_only : Bool) (position_idx : Option Int)
    (order_link_id : Option String) : List (String × JVal) :=
  let side2 := if str_upper side = "BUY" then "Buy" else "Sell"
  [("category", .s category), ("symbol", .s symbol), ("side", .s side2),
   ("orderType", .s "Limit"), ("qty", .s qty), ("price", .s price),
   ("timeInForce", .s time_in_force)]
  ++ (if reduce_only then [("reduceOnly", .b true)] else [])
  ++ (match position_idx with | some pi => [("positionIdx", JVal.i pi)] | none => [])
  ++ (match order_link_id with | some oid => [("orderLinkId", JVal.s oid)] | none => [])

/-- Modelled from the spec: the "non-numeric-string" rejection predicate of
§4.2 ("reject construction if `quantity` ... is absent or
non-numeric-string").  The source code contains no such check; this
definition exists only to state claim C9 against the spec's words. -/
def is_numeric_string (s : String) : Bool :=
  s ≠ "" && s.data.all (fun c => c.isDigit || c == '.')

/-! ## Bybit session-auth handshake and request envelope -/

/-- `_auth_signature` from `bybit_ws_orders.py`:
`HMAC-SHA256(secret, "GET/realtime" + expires)` in hex. -/
def auth_signature (secret : String) (expires_ms : Int) : String :=
  hmac_sha256_hex secret ("GET/realtime" ++ toString expires_ms)

/-- The auth message `{op: "auth", args: [api_key, expires, sig]}` sent by
`BybitFuturesWSClient.connect`. -/
structure BybitAuthMsg where
  op : String
  key : String
  expires : Int
  signature : String
deriving DecidableEq, Repr

/-- `connect` builds the expiry `int((time.time() + 10) * 1000)` (here `now`
is the whole-second clock reading) and the auth message. -/
def bybit_auth_message (key secret : String) (now : Int) : BybitAuthMsg :=
  let expires := (now + 10) * 1000
  { op := "auth", key := key, expires := expires,
    signature := auth_signature secret expires }

inductive ConnectError where
  | authenticationFailed
deriving DecidableEq, Repr

/-- The outcome of `connect` as a function of the acknowledgement's
`retCode` field (`data.get("retCode")`; an absent field is `none`): any value
other than 0 raises, modelled as `AuthenticationFailed`. -/
def bybit_connect_result (ack_ret_code : Option Int) : Except ConnectError Unit :=
  if ack_ret_code = some 0 then .ok () else .error .authenticationFailed

/-- The wire envelope `{reqId, header: {X-BAPI-TIMESTAMP, X-BAPI-RECV-WINDOW},
op, args}` built by `BybitFuturesWSClient._request`. -/
structure BybitRequestMsg where
  reqId : String
  timestamp : String
  recvWindow : String
  op : String
  args : List (List (String × JVal))
deriving DecidableEq, Repr

/-- `BybitFuturesWSClient._request` envelope construction.  The client's
credentials are passed in to show the envelope does not depend on them
(`_RECV_WINDOW = "5000"`). -/
def bybit_request_message (_api_key _api_secret reqId timestamp op : String)
    (args : List (List (String × JVal))) : BybitRequestMsg :=
  { reqId := reqId, timestamp := timestamp, recvWindow := "5000",
    op := op, args := args }

/-! ## Request/response correlation

`BinanceFuturesWSClient._request` and `BybitFuturesWSClient._request` send a
request carrying a fresh id and then loop: `while time.time() < deadline`
(with `deadline = time.time() + 30` at send), receive a frame, skip frames
that fail to parse as JSON and frames whose response id differs from the
request id; a matching frame succeeds or raises on a non-success status; an
exhausted loop (or a 30-second silent socket, via `settimeout(30)`) fails
with a timeout.  The loops are modelled over the list of (loop-entry clock
reading, received frame) pairs; a frame that fails `json.loads` is `none`. -/

/-- The deadline fixed at send time: `time.time() + 30`. -/
def request_deadline (send_time : Nat) : Nat := send_time + 30

/-- A parsed Binance response frame (fields via `data.get(...)`). -/
structure BinanceMsg where
  id : Option String
  status : Option Int
  errCode : Option Int
  errMsg : String
  result : List (String × JVal)
deriving DecidableEq, Repr

/-- Outcome of the Binance correlation wait. -/
inductive BinanceOutcome where
  | success (result : List (String × JVal))
  | rejected (code : Option Int) (msg : String)
  | timeout
deriving DecidableEq, Repr

/-- The Binance correlation loop over (clock, frame) events. -/
def binance_await (reqId : String) (deadline : Nat) :
    List (Nat × Option BinanceMsg) → BinanceOutcome
  | [] => .timeout
  | (t, m) :: rest =>
    if deadline ≤ t then .timeout
    else
      match m with
      | none => binance_await reqId deadline rest
      | some d =>
        if d.id = some reqId then
          if d.status ≠ some 200 then .rejected d.errCode d.errMsg
          else .success d.result
        else binance_await reqId deadline rest

/-- A parsed Bybit response frame. -/
structure BybitMsg where
  reqId : Option String
  retCode : Option Int
  retMsg : String
  data : List (String × JVal)
deriving DecidableEq, Repr

/-- Outcome of the Bybit correlation wait.  A rejection raises
`RuntimeError(f"Bybit {op} failed: {retMsg}")`, which carries the op and the
exchange's message — and nothing else. -/
inductive BybitOutcome where
  | success (data : List (String × JVal))
  | rejected (op : String) (msg : String)
  | timeout
deriving DecidableEq, Repr

/-- The Bybit correlation loop over (clock, frame) events. -/
def bybit_await (op reqId : String) (deadline : Nat) :
    List (Nat × Option BybitMsg) → BybitOutcome
  | [] => .timeout
  | (t, m) :: rest =>
    if deadline ≤ t then .timeout
    else
      match m with
      | none => bybit_await op reqId deadline rest
      | some d =>
        if d.reqId = some reqId then
          if d.retCode ≠ some 0 then .rejected op d.retMsg
          else .success d.data
        else bybit_await op reqId deadline rest

/-! ## The order-runner loop body

`run_order_reader` (in both modules) polls the channel; on a decoded record
it validates required fields, dispatches to the client and handles clearing.
One loop iteration on a successfully decoded record is modelled as a
function of the record and of the outcome of the dispatch (what the exchange
did); it reports what was dispatched, how many times `_clear_order_shm` ran,
and whether an exception escaped the iteration.  Record field values are
Python values (`None`, `str`, `int`, `bool`). -/

/-- A Python value held in a decoded order record. -/
inductive PyVal where
  | none
  | s (v : String)
  | i (v : Int)
  | b (v : Bool)
deriving DecidableEq, Repr

/-- A decoded order record (a Python dict). -/
abbrev PyRec := List (String × PyVal)

/-- `order.get(k)` without default: `Option`-valued lookup. -/
def py_get_opt (r : PyRec) (k : String) : Option PyVal :=
  (r.find? (fun kv => kv.1 == k)).map (·.2)

/-- `order.get(k)`: absent keys give `None`. -/
def py_get (r : PyRec) (k : String) : PyVal := (py_get_opt r k).getD .none

/-- Python truthiness. -/
def py_truthy : PyVal → Bool
  | .none => false
  | .s v => v != ""
  | .i v => v != 0
  | .b v => v

/-- Python `a or b`. -/
def py_or (a b : PyVal) : PyVal := if py_truthy a then a else b

/-- Python `str()`. -/
def py_str : PyVal → String
  | .none => "None"
  | .s v => v
  | .i v => toString v
  | .b v => if v then "True" else "False"

/-- A string method (`upper`, `strip`) on a non-string raises
`AttributeError`. -/
def py_as_str : PyVal → Except Unit String
  | .s v => .ok v
  | _ => .error ()

/-- `(order.get("type") or "").upper()` from the Binance runner. -/
def binance_order_type (order : PyRec) : Except Unit String :=
  (py_as_str (py_or (py_get order "type") (.s ""))).map str_upper

/-- `(order.get("orderType") or order.get("type") or "").strip().upper()`
from the Bybit runner. -/
def bybit_order_type (order : PyRec) : Except Unit String :=
  (py_as_str (py_or (py_or (py_get order "orderType") (py_get order "type"))
    (.s ""))).map (fun s => str_upper (str_strip s))

/-- The outcome of the dispatched `place_*_order` call: success, or the
exception it raised (exchange rejection, correlation timeout, closed
transport). -/
inductive SubmitOutcome where
  | success
  | orderRejected
  | requestTimeout
  | transportClosed
deriving DecidableEq, Repr

/-- What one runner-loop iteration did. -/
structure RunnerStep (δ : Type) where
  dispatched : Option δ
  clears : Nat
  raised : Bool
deriving DecidableEq, Repr

/-- A dispatch from the Binance runner to `BinanceFuturesWSClient`. -/
inductive BinanceDispatch where
  | market (symbol side : PyVal) (qty : String)
      (reduceOnly positionSide clientOrderId : PyVal)
  | limit (symbol side : PyVal) (qty price : String)
      (timeInForce reduceOnly positionSide clientOrderId : PyVal)
deriving DecidableEq, Repr

/-- One iteration of the Binance `run_order_reader` loop on a decoded
record.  The `try` block around the dispatch has `except Exception` (which
logs and, on a closed transport, reconnects — modelled as succeeding) and a
`finally` that always runs `_clear_order_shm`; `continue` statements inside
the `try` (the missing-price path) also run the `finally`.  The invalid-record
path at the top of the iteration is outside the `try` and clears nothing. -/
def binance_runner_step (order : PyRec) (_outcome : SubmitOutcome) :
    RunnerStep BinanceDispatch :=
  match binance_order_type order with
  | .error _ => { dispatched := none, clears := 0, raised := true }
  | .ok otype =>
    if ¬(py_truthy (py_get order "symbol") ∧ py_truthy (py_get order "side") ∧
         py_truthy (py_get order "quantity")) ∨ (otype ≠ "MARKET" ∧ otype ≠ "LIMIT") then
      { dispatched := none, clears := 0, raised := false }
    else
      let qty := py_str (py_get order "quantity")
      let reduceOnly := (py_get_opt order "reduce_only").getD (.b false)
      let positionSide := py_get order "position_side"
      let clientId := py_get order "new_client_order_id"
      if otype = "MARKET" then
        { dispatched := some (.market (py_get order "symbol") (py_get order "side")
            qty reduceOnly positionSide clientId),
          clears := 1, raised := false }
      else if ¬ py_truthy (py_get order "price") then
        { dispatched := none, clears := 1, raised := false }
      else
        { dispatched := some (.limit (py_get order "symbol") (py_get order "side")
            qty (py_str (py_get order "price"))
            ((py_get_opt order "time_in_force").getD (.s "GTC"))
            reduceOnly positionSide clientId),
          clears := 1, raised := false }

/-- A dispatch from the Bybit runner to `BybitFuturesWSClient`. -/
inductive BybitDispatch where
  | market (symbol : PyVal) (side qty : String)
      (category reduceOnly positionIdx orderLinkId : PyVal)
  | limit (symbol : PyVal) (side qty price : String)
      (category timeInForce reduceOnly positionIdx orderLinkId : PyVal)
deriving DecidableEq, Repr

/-- `side = "Buy" if (str(side).upper() == "BUY") else "Sell"` from the
Bybit runner (line 299): any side value whose `str()` does not uppercase to
`"BUY"` — including a missing field, whose `str()` is `"None"` — maps to
`"Sell"`. -/
def bybit_side (order : PyRec) : String :=
  if str_upper (py_str (py_get order "side")) = "BUY" then "Buy" else "Sell"

/-- One iteration of the Bybit `run_order_reader` loop on a decoded record.
`_clear_order_shm` is the last statement inside the `try`, after the
dispatch: it runs only when the dispatch returned without raising.  The
`except Exception` branch only logs.  `continue` on a missing limit price
skips the clear.  The invalid-record path clears nothing. -/
def bybit_runner_step (order : PyRec) (outcome : SubmitOutcome) :
    RunnerStep BybitDispatch :=
  match bybit_order_type order with
  | .error _ => { dispatched := none, clears := 0, raised := true }
  | .ok otype =>
    let qty := py_or (py_get order "qty") (py_get order "quantity")
    if ¬(py_truthy (py_get order "symbol") ∧ py_truthy qty) ∨
        (otype ≠ "MARKET" ∧ otype ≠ "LIMIT") then
      { dispatched := none, clears := 0, raised := false }
    else
      let qty_str := py_str qty
      let side := bybit_side order
      let category := (py_get_opt order "category").getD (.s "linear")
      let reduceOnly := (py_get_opt order "reduceOnly").getD
        ((py_get_opt order "reduce_only").getD (.b false))
      let positionIdx := (py_get_opt order "positionIdx").getD (py_get order "position_idx")
      let orderLinkId := (py_get_opt order "orderLinkId").getD (py_get order "order_link_id")
      if otype = "MARKET" then
        { dispatched := some (.market (py_get order "symbol") side qty_str
            category reduceOnly positionIdx orderLinkId),
          clears := if outcome = .success then 1 else 0, raised := false }
      else if ¬ py_truthy (py_get order "price") then
        { dispatched := none, clears := 0, raised := false }
      else
        { dispatched := some (.limit (py_get order "symbol") side qty_str
            (py_str (py_get order "price")) category
            ((py_get_opt order "timeInForce").getD
              ((py_get_opt order "time_in_force").getD (.s "GTC")))
            reduceOnly positionIdx orderLinkId),
          clears := if outcome = .success then 1 else 0, raised := false }

/-- Equality of `Except` results is decidable (needed to evaluate the models
on concrete inputs). -/
instance {ε α : Type} [DecidableEq ε] [DecidableEq α] : DecidableEq (Except ε α)
  | .ok a, .ok b =>
    if h : a = b then isTrue (by rw [h]) else isFalse (fun hc => h (Except.ok.inj hc))
  | .error a, .error b =>
    if h : a = b then isTrue (by rw [h]) else isFalse (fun hc => h (Except.error.inj hc))
  | .ok _, .error _ => isFalse (fun hc => Except.noConfusion hc)
  | .error _, .ok _ => isFalse (fun hc => Except.noConfusion hc)

/-! ## Claims -/

/-- C2: For every order-request record R whose serialized form fits within
MAX_PAYLOAD bytes, writing R with `write_order_request` and then reading the
channel with `_read_order_from_shm`, with no interleaving writer, returns
exactly R. -/
theorem C2_channel_roundtrip (maxPayload : Nat) (R : MpRec) (buf : Buffer)
    (payload : List Nat) (hp : packb R = some payload)
    (hfit : payload.length ≤ maxPayload) :
    ∃ buf', write_order_request maxPayload R buf = some buf' ∧
      read_order_static maxPayload buf' = .ok (some R) := by
  have hpos : 0 < payload.length := packb_length_pos hp
  refine ⟨⟨2, (payload.length : Int), payload ++ buf.payload.drop payload.length⟩, ?_, ?_⟩
  · unfold write_order_request
    rw [hp]
    simp only [if_neg (Nat.not_lt.mpr hfit)]
  · have h2a : (0 : Int) < (payload.length : Int) := by exact_mod_cast hpos
    have h2b : (payload.length : Int) ≤ (maxPayload : Int) := by exact_mod_cast hfit
    unfold read_order_static read_order_from_shm
    rw [if_neg (by norm_num)]
    rw [if_neg (not_not_intro ⟨h2a, h2b⟩)]
    rw [if_neg (by norm_num)]
    have htake : ((payload.length : Int)).toNat = payload.length := Int.toNat_natCast _
    rw [htake, List.take_left, unpackb_packb hp]

/-- Witness for C2 at a concrete record (`{"a": "b"}`, encoded as the five
bytes fixmap/fixstr). -/
theorem C2_channel_roundtrip_witness :
    packb [([97], MpVal.str [98])] = some [129, 161, 97, 161, 98] ∧
    ([129, 161, 97, 161, 98] : List Nat).length ≤ 64 ∧
    ∃ buf', write_order_request 64 [([97], MpVal.str [98])]
        ⟨0, 0, List.replicate 64 0⟩ = some buf' ∧
      read_order_static 64 buf' = .ok (some [([97], MpVal.str [98])]) :=
  ⟨by decide, by decide,
   C2_channel_roundtrip 64 [([97], MpVal.str [98])] ⟨0, 0, List.replicate 64 0⟩
     [129, 161, 97, 161, 98] (by decide) (by decide)⟩

/-- C4, counterexample: `write_order_request` run on a buffer whose stable
version is 2 (a previous write not yet cleared) stores versions 1, 1, 1, 2 —
the first store is not an increment (it lowers 2 to 1) and the stable version
after the completed write equals the stable version before it, contradicting
"the stable version after a completed write differs from the stable version
before it". -/
theorem C4_counterexample :
    ((write_order_states 64 [([97], MpVal.str [98])] ⟨2, 0, []⟩).map
        (fun l => l.map Buffer.version)) = some [1, 1, 1, 2] ∧
    (Buffer.version ⟨2, 0, []⟩) = 2 := by decide

/-- C4, amended: the orderbook snapshot writer (`stream_orderbook`) does
increment its version counter to an odd value before storing the payload and
to an even value afterwards, and the stable version after its completed write
differs from the stable one before; the order-channel `write_order_request`
instead stores the constants 1 (odd, during the write) and 2 (even, after),
so its post-write stable version is always 2 regardless of the previous
stable version. -/
theorem C4_amended (maxPayload : Nat) (v : Int) (payload : List Nat) (buf : Buffer)
    (hstable : buf.version = v) (heven : v % 2 = 0) (hfit : payload.length ≤ maxPayload)
    (R : MpRec) (buf2 : Buffer) (states : List Buffer)
    (hw : write_order_states maxPayload R buf2 = some states) :
    ((stream_orderbook_states maxPayload v payload buf).2.map Buffer.version
        = [v + 1, v + 1, v + 1, v + 2]) ∧
    (v + 1) % 2 = 1 ∧ (v + 2) % 2 = 0 ∧
    (stream_orderbook_states maxPayload v payload buf).1 ≠ buf.version ∧
    states.map Buffer.version = [1, 1, 1, 2] := by
  refine ⟨?_, by omega, by omega, ?_, ?_⟩
  · simp [stream_orderbook_states, hfit]
  · simp only [stream_orderbook_states, if_pos hfit]
    rw [hstable]
    omega
  · unfold write_order_states at hw
    cases hp : packb R with
    | none => rw [hp] at hw; exact Option.noConfusion hw
    | some p =>
      rw [hp] at hw
      by_cases hbig : maxPayload < p.length
      · simp only [if_pos hbig] at hw
        exact Option.noConfusion hw
      · simp only [if_neg hbig] at hw
        cases hw
        rfl

/-- Witness for C4 at concrete inputs: an orderbook write from counter 0 and
an order-channel write over an uncleared (version 2) buffer. -/
theorem C4_amended_witness :
    ((stream_orderbook_states 64 0 [1] ⟨0, 0, []⟩).2.map Buffer.version
        = [0 + 1, 0 + 1, 0 + 1, 0 + 2]) ∧
    ((0 : Int) + 1) % 2 = 1 ∧ ((0 : Int) + 2) % 2 = 0 ∧
    (stream_orderbook_states 64 0 [1] ⟨0, 0, []⟩).1 ≠ (Buffer.version ⟨0, 0, []⟩) ∧
    List.map Buffer.version
        [⟨1, 0, []⟩, ⟨1, 5, []⟩, ⟨1, 5, [129, 161, 97, 161, 98]⟩,
         ⟨2, 5, [129, 161, 97, 161, 98]⟩] = [1, 1, 1, 2] :=
  C4_amended 64 0 [1] ⟨0, 0, []⟩ (by decide) (by decide) (by decide)
    [([97], MpVal.str [98])] ⟨2, 0, []⟩ _ (by decide)

/-- C5, counterexample: on the buffer state (version 2, payload_size 0), the
channel read in `helpers.read_snapshot` does not return "not ready": it has
no payload_size guard at all, reads zero bytes and calls `msgpack.unpackb`
on the empty byte string, which raises — contradicting "if payload_size is
zero or greater than MAX_PAYLOAD it returns not ready" and "it never
raises". -/
theorem C5_counterexample :
    read_snapshot_static ⟨2, 0, []⟩ = some (.error ()) := by rfl

/-- C5, amended: the order-channel read `_read_order_from_shm` is total and
non-blocking and returns "not ready" on an odd first version, an
out-of-range payload_size, or a torn re-read, exactly as claimed; it raises
only when every guard passes but the guarded bytes are not a valid msgpack
record.  (The snapshot read in `helpers.py`, by contrast, has no size guard,
retries instead of returning "not ready", and raises on such payloads — see
the counterexample.) -/
theorem C5_amended (maxPayload : Nat) (b1 b2 b3 b4 : Buffer) :
    (b1.version % 2 ≠ 0 → read_order_from_shm maxPayload b1 b2 b3 b4 = .ok none) ∧
    (¬(0 < b2.size ∧ b2.size ≤ (maxPayload : Int)) →
      read_order_from_shm maxPayload b1 b2 b3 b4 = .ok none) ∧
    ((b1.version ≠ b4.version ∨ b4.version % 2 ≠ 0) →
      read_order_from_shm maxPayload b1 b2 b3 b4 = .ok none) ∧
    (read_order_from_shm maxPayload b1 b2 b3 b4 = .error () ↔
      (b1.version % 2 = 0 ∧ 0 < b2.size ∧ b2.size ≤ (maxPayload : Int) ∧
       b1.version = b4.version ∧
       unpackb (b3.payload.take b2.size.toNat) = none)) := by
  refine ⟨fun hodd => ?_, fun hsz => ?_, fun htear => ?_, ?_, ?_⟩
  · simp only [read_order_from_shm, if_pos hodd]
  · by_cases hv : b1.version % 2 ≠ 0
    · simp only [read_order_from_shm, if_pos hv]
    · simp only [read_order_from_shm, if_neg hv, if_pos hsz]
  · by_cases hv : b1.version % 2 ≠ 0
    · simp only [read_order_from_shm, if_pos hv]
    · by_cases h2 : 0 < b2.size ∧ b2.size ≤ (maxPayload : Int)
      · simp only [read_order_from_shm, if_neg hv, if_neg (not_not_intro h2), if_pos htear]
      · simp only [read_order_from_shm, if_neg hv, if_pos h2]
  · intro he
    by_cases hv : b1.version % 2 ≠ 0
    · simp only [read_order_from_shm, if_pos hv] at he
      exact Except.noConfusion he
    · by_cases h2 : 0 < b2.size ∧ b2.size ≤ (maxPayload : Int)
      · by_cases h3 : b1.version ≠ b4.version ∨ b4.version % 2 ≠ 0
        · simp only [read_order_from_shm, if_neg hv, if_neg (not_not_intro h2),
            if_pos h3] at he
          exact Except.noConfusion he
        · cases hu : unpackb (b3.payload.take b2.size.toNat) with
          | none =>
            push_neg at h3
            exact ⟨not_not.mp hv, h2.1, h2.2, h3.1, rfl⟩
          | some rec =>
            simp only [read_order_from_shm, if_neg hv, if_neg (not_not_intro h2),
              if_neg h3, hu] at he
            exact Except.noConfusion he
      · simp only [read_order_from_shm, if_neg hv, if_pos h2] at he
        exact Except.noConfusion he
  · rintro ⟨hv, ha, hb, heq, hu⟩
    have hv' : ¬(b1.version % 2 ≠ 0) := not_not_intro hv
    have h3' : ¬(b1.version ≠ b4.version ∨ b4.version % 2 ≠ 0) := by
      push_neg
      refine ⟨heq, ?_⟩
      rw [← heq]
      exact hv
    simp only [read_order_from_shm]
    rw [if_neg hv', if_neg (not_not_intro ⟨ha, hb⟩), if_neg h3', hu]

/-- Witness for C5 at a concrete torn buffer (odd version): the read reports
"not ready". -/
theorem C5_amended_witness :
    read_order_from_shm 64 ⟨3, 1, []⟩ ⟨3, 1, []⟩ ⟨3, 1, []⟩ ⟨3, 1, []⟩ = .ok none :=
  (C5_amended 64 ⟨3, 1, []⟩ ⟨3, 1, []⟩ ⟨3, 1, []⟩ ⟨3, 1, []⟩).1 (by decide)

/-- C1: the Binance runner clears the channel exactly once per dispatched
record on every outcome (its clear is in a `finally`), but the Bybit runner's
clear is the last statement of its `try` block: when the dispatch raises
(`OrderRejected`, `RequestTimeout`, `TransportClosed`), the channel is not
cleared at all, so the same record is read and re-sent on the next poll.
This theorem evaluates both runners at the failing input: a valid market
record whose dispatch fails. -/
theorem C1_bybit_clears_only_on_success :
    (bybit_runner_step
        [("symbol", PyVal.s "BTCUSDT"), ("side", PyVal.s "Buy"),
         ("orderType", PyVal.s "Market"), ("qty", PyVal.s "0.001")]
        .orderRejected).clears = 0 ∧
    (bybit_runner_step
        [("symbol", PyVal.s "BTCUSDT"), ("side", PyVal.s "Buy"),
         ("orderType", PyVal.s "Market"), ("qty", PyVal.s "0.001")]
        .orderRejected).dispatched =
      some (.market (PyVal.s "BTCUSDT") "Buy" "0.001" (PyVal.s "linear")
        (PyVal.b false) PyVal.none PyVal.none) ∧
    (bybit_runner_step
        [("symbol", PyVal.s "BTCUSDT"), ("side", PyVal.s "Buy"),
         ("orderType", PyVal.s "Market"), ("qty", PyVal.s "0.001")]
        .requestTimeout).clears = 0 ∧
    (bybit_runner_step
        [("symbol", PyVal.s "BTCUSDT"), ("side", PyVal.s "Buy"),
         ("orderType", PyVal.s "Market"), ("qty", PyVal.s "0.001")]
        .transportClosed).clears = 0 ∧
    (bybit_runner_step
        [("symbol", PyVal.s "BTCUSDT"), ("side", PyVal.s "Buy"),
         ("orderType", PyVal.s "Market"), ("qty", PyVal.s "0.001")]
        .success).clears = 1 ∧
    (binance_runner_step
        [("symbol", PyVal.s "BTCUSDT"), ("side", PyVal.s "BUY"),
         ("type", PyVal.s "MARKET"), ("quantity", PyVal.s "0.001")]
        .orderRejected).clears = 1 := by decide

/-- C3, counterexample: on a record missing `quantity`, the Binance runner
does not clear the channel (0 calls to `_clear_order_shm`) before
continuing — the invalid-record `continue` is before the `try`/`finally` —
contradicting "the runner clears the channel and continues".  (It does
continue without dispatching and without raising, as claimed.) -/
theorem C3_counterexample :
    binance_runner_step
        [("symbol", PyVal.s "BTCUSDT"), ("side", PyVal.s "BUY"),
         ("type", PyVal.s "MARKET")] .success =
      { dispatched := none, clears := 0, raised := false } := by decide

/-- C3, amended: on a record that fails the runner's validation (a required
field missing or falsy, or an order kind other than MARKET/LIMIT), both
runners continue their loop without invoking the client and without raising,
but do NOT clear the channel: the invalid record stays in the slot until a
producer overwrites it. -/
theorem C3_amended (order : PyRec) (outcome : SubmitOutcome) :
    (∀ otype, binance_order_type order = .ok otype →
      (¬(py_truthy (py_get order "symbol") ∧ py_truthy (py_get order "side") ∧
          py_truthy (py_get order "quantity")) ∨ (otype ≠ "MARKET" ∧ otype ≠ "LIMIT")) →
      binance_runner_step order outcome =
        { dispatched := none, clears := 0, raised := false }) ∧
    (∀ otype, bybit_order_type order = .ok otype →
      (¬(py_truthy (py_get order "symbol") ∧
          py_truthy (py_or (py_get order "qty") (py_get order "quantity"))) ∨
        (otype ≠ "MARKET" ∧ otype ≠ "LIMIT")) →
      bybit_runner_step order outcome =
        { dispatched := none, clears := 0, raised := false }) := by
  constructor
  · intro otype hot hinv
    simp only [binance_runner_step, hot]
    rw [if_pos hinv]
  · intro otype hot hinv
    simp only [bybit_runner_step, hot]
    rw [if_pos hinv]

/-- Witness for C3 at the concrete missing-`quantity` record. -/
theorem C3_amended_witness :
    binance_runner_step
        [("symbol", PyVal.s "ETHUSDT"), ("side", PyVal.s "SELL"),
         ("type", PyVal.s "LIMIT")] .transportClosed =
      { dispatched := none, clears := 0, raised := false } :=
  (C3_amended
      [("symbol", PyVal.s "ETHUSDT"), ("side", PyVal.s "SELL"),
       ("type", PyVal.s "LIMIT")] .transportClosed).1
    "LIMIT" (by decide) (by decide)

/-- C10: for every record the Bybit runner accepts (symbol and quantity
truthy, order type normalizing to MARKET, or to LIMIT with a truthy price),
the order is dispatched with side `"Buy"` exactly when `str(side).upper() ==
"BUY"` and `"Sell"` otherwise; a missing side field (Python `None`,
stringified `"None"`) maps to `"Sell"`, and no side value is ever a reason
to drop the record. -/
theorem C10_bybit_side_never_drops (order : PyRec) (outcome : SubmitOutcome)
    (hsym : py_truthy (py_get order "symbol"))
    (hqty : py_truthy (py_or (py_get order "qty") (py_get order "quantity"))) :
    (bybit_order_type order = .ok "MARKET" →
      ∃ symbol qty category ro pidx olid,
        (bybit_runner_step order outcome).dispatched =
          some (.market symbol (bybit_side order) qty category ro pidx olid)) ∧
    (bybit_order_type order = .ok "LIMIT" → py_truthy (py_get order "price") →
      ∃ symbol qty price category tif ro pidx olid,
        (bybit_runner_step order outcome).dispatched =
          some (.limit symbol (bybit_side order) qty price category tif ro pidx olid)) ∧
    (py_get order "side" = .none → bybit_side order = "Sell") ∧
    (str_upper (py_str (py_get order "side")) ≠ "BUY" → bybit_side order = "Sell") := by
  have hval : ¬(¬(py_truthy (py_get order "symbol") ∧
      py_truthy (py_or (py_get order "qty") (py_get order "quantity")))) :=
    not_not_intro ⟨hsym, hqty⟩
  refine ⟨fun hm => ?_, fun hl hp => ?_, fun hn => ?_, fun hne => ?_⟩
  · refine ⟨py_get order "symbol",
      py_str (py_or (py_get order "qty") (py_get order "quantity")),
      (py_get_opt order "category").getD (.s "linear"),
      (py_get_opt order "reduceOnly").getD ((py_get_opt order "reduce_only").getD (.b false)),
      (py_get_opt order "positionIdx").getD (py_get order "position_idx"),
      (py_get_opt order "orderLinkId").getD (py_get order "order_link_id"), ?_⟩
    simp only [bybit_runner_step, hm]
    rw [if_neg (by simp [hsym, hqty])]
    simp
  · refine ⟨py_get order "symbol",
      py_str (py_or (py_get order "qty") (py_get order "quantity")),
      py_str (py_get order "price"),
      (py_get_opt order "category").getD (.s "linear"),
      (py_get_opt order "timeInForce").getD ((py_get_opt order "time_in_force").getD (.s "GTC")),
      (py_get_opt order "reduceOnly").getD ((py_get_opt order "reduce_only").getD (.b false)),
      (py_get_opt order "positionIdx").getD (py_get order "position_idx"),
      (py_get_opt order "orderLinkId").getD (py_get order "order_link_id"), ?_⟩
    simp only [bybit_runner_step, hl]
    rw [if_neg (by simp [hsym, hqty])]
    simp [hp]
  · unfold bybit_side
    rw [hn]
    decide
  · unfold bybit_side
    rw [if_neg hne]

/-- Witness for C10 at a concrete record with no side field at all. -/
theorem C10_bybit_side_never_drops_witness :
    (∃ symbol qty category ro pidx olid,
      (bybit_runner_step
          [("symbol", PyVal.s "BTCUSDT"), ("qty", PyVal.s "1"),
           ("orderType", PyVal.s "Market")] .success).dispatched =
        some (.market symbol
          (bybit_side [("symbol", PyVal.s "BTCUSDT"), ("qty", PyVal.s "1"),
            ("orderType", PyVal.s "Market")]) qty category ro pidx olid)) ∧
    bybit_side [("symbol", PyVal.s "BTCUSDT"), ("qty", PyVal.s "1"),
      ("orderType", PyVal.s "Market")] = "Sell" :=
  ⟨(C10_bybit_side_never_drops
      [("symbol", PyVal.s "BTCUSDT"), ("qty", PyVal.s "1"),
       ("orderType", PyVal.s "Market")] .success (by decide) (by decide)).1 (by decide),
   (C10_bybit_side_never_drops
      [("symbol", PyVal.s "BTCUSDT"), ("qty", PyVal.s "1"),
       ("orderType", PyVal.s "Market")] .success (by decide) (by decide)).2.2.1 (by decide)⟩

theorem dict_set_not_mem {l : List (String × JVal)} {k : String} (v : JVal)
    (h : k ∉ l.map Prod.fst) : dict_set l k v = l ++ [(k, v)] := by
  unfold dict_set
  rw [if_neg]
  intro hc
  rw [List.any_eq_true] at hc
  obtain ⟨kv, hmem, hk⟩ := hc
  exact h (List.mem_map.mpr ⟨kv, hmem, by simpa using hk⟩)

theorem dict_lookup_append_last {l : List (String × JVal)} {k : String} (v : JVal)
    (h : k ∉ l.map Prod.fst) : dict_lookup (l ++ [(k, v)]) k = some v := by
  induction l with
  | nil => simp [dict_lookup]
  | cons kv rest ih =>
    simp only [List.map_cons, List.mem_cons, not_or] at h
    obtain ⟨h1, h2⟩ := h
    have hne : (kv.1 == k) = false := by
      simpa using fun hc => h1 (by rw [hc])
    simp only [List.cons_append, dict_lookup, List.find?]
    rw [hne]
    exact ih h2

theorem mem_keys_dict_set_self (l : List (String × JVal)) (k : String) (v : JVal) :
    k ∈ (dict_set l k v).map Prod.fst := by
  unfold dict_set
  by_cases ha : l.any (fun kv => kv.1 == k) = true
  · rw [if_pos ha]
    rw [List.any_eq_true] at ha
    obtain ⟨kv, hmem, hk⟩ := ha
    exact List.mem_map.mpr ⟨(k, v), List.mem_map.mpr ⟨kv, hmem, by rw [if_pos hk]⟩, rfl⟩
  · rw [if_neg ha]
    simp

theorem not_mem_keys_dict_set {l : List (String × JVal)} {k k' : String} {v : JVal}
    (hne : k' ≠ k) (h : k' ∉ l.map Prod.fst) :
    k' ∉ (dict_set l k v).map Prod.fst := by
  unfold dict_set
  by_cases ha : l.any (fun kv => kv.1 == k) = true
  · rw [if_pos ha]
    intro hc
    obtain ⟨kv2, hmem2, heq2⟩ := List.mem_map.mp hc
    obtain ⟨kv, hmem, heq⟩ := List.mem_map.mp hmem2
    by_cases hkv : (kv.1 == k) = true
    · rw [if_pos hkv] at heq
      exact hne (by rw [← heq2, ← heq])
    · rw [if_neg (by simpa using hkv)] at heq
      exact h (List.mem_map.mpr ⟨kv, hmem, by rw [heq, heq2]⟩)
  · rw [if_neg ha]
    intro hc
    rw [List.map_append, List.mem_append] at hc
    rcases hc with hc | hc
    · exact h hc
    · simp only [List.map_cons, List.map_nil, List.mem_singleton] at hc
      exact hne hc

/-- C6: the Binance query-signing codec.  For every parameter mapping (with
no pre-existing `signature` entry) and secret: the `signature` field of the
sent params is the hex HMAC-SHA256 digest, keyed by the secret, of the query
string of the params with the API key already merged in; that query string
serializes the pairs as `key=value` joined by `&` in ascending alphabetical
key order (the serialized sequence is sorted by key and is a permutation of
the parameter set); the `signature` field itself is not among the signed
pairs; and the result is deterministic (a pure function of params and
secret). -/
theorem C6_query_signing (params : List (String × JVal)) (apiKey secret : String)
    (hsig : "signature" ∉ params.map Prod.fst) :
    dict_lookup (request_params params apiKey secret) "signature" =
      some (.s (hmac_sha256_hex secret
        (query_string (dict_set params "apiKey" (.s apiKey))))) ∧
    query_string (dict_set params "apiKey" (.s apiKey)) =
      String.intercalate "&"
        ((sorted_items (dict_set params "apiKey" (.s apiKey))).map
          fun kv => kv.1 ++ "=" ++ jshow kv.2) ∧
    List.Pairwise key_le (sorted_items (dict_set params "apiKey" (.s apiKey))) ∧
    (sorted_items (dict_set params "apiKey" (.s apiKey))).Perm
      (dict_set params "apiKey" (.s apiKey)) ∧
    "apiKey" ∈ (dict_set params "apiKey" (.s apiKey)).map Prod.fst ∧
    "signature" ∉ (sorted_items (dict_set params "apiKey" (.s apiKey))).map Prod.fst := by
  have hp1 : "signature" ∉ (dict_set params "apiKey" (.s apiKey)).map Prod.fst :=
    not_mem_keys_dict_set (by decide) hsig
  refine ⟨?_, rfl, ?_, ?_, ?_, ?_⟩
  · unfold request_params
    rw [dict_set_not_mem _ hp1]
    exact dict_lookup_append_last _ hp1
  · exact List.sorted_insertionSort key_le _
  · exact List.perm_insertionSort key_le _
  · exact mem_keys_dict_set_self _ _ _
  · intro hc
    exact hp1 (((List.perm_insertionSort key_le _).map Prod.fst).mem_iff.mp hc)

/-- Witness for C6 at a concrete parameter set. -/
theorem C6_query_signing_witness :
    dict_lookup (request_params [("symbol", JVal.s "BTCUSDT")] "k" "s") "signature" =
      some (.s (hmac_sha256_hex "s"
        (query_string (dict_set [("symbol", JVal.s "BTCUSDT")] "apiKey" (.s "k"))))) :=
  (C6_query_signing [("symbol", JVal.s "BTCUSDT")] "k" "s" (by decide)).1

/-- C7: the Bybit session-auth handshake.  For every secret and expiry, the
auth signature is the hex HMAC-SHA256 digest, keyed by the secret, of
`"GET/realtime"` concatenated with the expiry; `connect` sends
`{op: "auth", args: [api_key, expiry, signature]}` with expiry
`(now + 10) * 1000`; an acknowledgement whose `retCode` is anything but 0
fails with `AuthenticationFailed` (and a 0 `retCode` succeeds); and the
order-request envelope that follows is independent of the api secret (no
per-request secret material). -/
theorem C7_session_auth (key secret : String) (now expires : Int) (ack : Option Int) :
    auth_signature secret expires =
      hmac_sha256_hex secret ("GET/realtime" ++ toString expires) ∧
    bybit_auth_message key secret now =
      { op := "auth", key := key, expires := (now + 10) * 1000,
        signature := auth_signature secret ((now + 10) * 1000) } ∧
    (ack ≠ some 0 → bybit_connect_result ack = .error .authenticationFailed) ∧
    (ack = some 0 → bybit_connect_result ack = .ok ()) ∧
    (∀ s1 s2 reqId ts op args, bybit_request_message key s1 reqId ts op args =
      bybit_request_message key s2 reqId ts op args) := by
  refine ⟨rfl, rfl, fun h => ?_, fun h => ?_, fun s1 s2 reqId ts op args => rfl⟩
  · unfold bybit_connect_result
    rw [if_neg h]
  · unfold bybit_connect_result
    rw [if_pos h]

/-- Witness for C7: a concrete non-success acknowledgement fails the
connect. -/
theorem C7_session_auth_witness :
    bybit_connect_result (some 10002) = .error .authenticationFailed :=
  (C7_session_auth "k" "s" 0 0 (some 10002)).2.2.1 (by decide)

theorem binance_await_skip (reqId : String) (deadline : Nat)
    (pre evs : List (Nat × Option BinanceMsg))
    (hpre : ∀ e ∈ pre, e.1 < deadline ∧ ∀ m, e.2 = some m → m.id ≠ some reqId) :
    binance_await reqId deadline (pre ++ evs) = binance_await reqId deadline evs := by
  induction pre with
  | nil => rfl
  | cons e rest ih =>
    obtain ⟨t, m⟩ := e
    have he := hpre (t, m) (List.mem_cons_self _ _)
    cases m with
    | none =>
      simp only [List.cons_append, binance_await]
      rw [if_neg (Nat.not_le.mpr he.1)]
      exact ih (fun e hm => hpre e (List.mem_cons_of_mem _ hm))
    | some d =>
      simp only [List.cons_append, binance_await]
      rw [if_neg (Nat.not_le.mpr he.1), if_neg (he.2 d rfl)]
      exact ih (fun e hm => hpre e (List.mem_cons_of_mem _ hm))

theorem binance_await_no_match (reqId : String) (deadline : Nat)
    (evs : List (Nat × Option BinanceMsg))
    (h : ∀ e ∈ evs, deadline ≤ e.1 ∨ ∀ m, e.2 = some m → m.id ≠ some reqId) :
    binance_await reqId deadline evs = .timeout := by
  induction evs with
  | nil => rfl
  | cons e rest ih =>
    obtain ⟨t, m⟩ := e
    by_cases hle : deadline ≤ t
    · simp only [binance_await]
      rw [if_pos hle]
    · rcases h (t, m) (List.mem_cons_self _ _) with hc | hc
      · exact absurd hc hle
      · cases m with
        | none =>
          simp only [binance_await]
          rw [if_neg hle]
          exact ih (fun e hm => h e (List.mem_cons_of_mem _ hm))
        | some d =>
          simp only [binance_await]
          rw [if_neg hle, if_neg (hc d rfl)]
          exact ih (fun e hm => h e (List.mem_cons_of_mem _ hm))

theorem bybit_await_skip (op reqId : String) (deadline : Nat)
    (pre evs : List (Nat × Option BybitMsg))
    (hpre : ∀ e ∈ pre, e.1 < deadline ∧ ∀ m, e.2 = some m → m.reqId ≠ some reqId) :
    bybit_await op reqId deadline (pre ++ evs) = bybit_await op reqId deadline evs := by
  induction pre with
  | nil => rfl
  | cons e rest ih =>
    obtain ⟨t, m⟩ := e
    have he := hpre (t, m) (List.mem_cons_self _ _)
    cases m with
    | none =>
      simp only [List.cons_append, bybit_await]
      rw [if_neg (Nat.not_le.mpr he.1)]
      exact ih (fun e hm => hpre e (List.mem_cons_of_mem _ hm))
    | some d =>
      simp only [List.cons_append, bybit_await]
      rw [if_neg (Nat.not_le.mpr he.1), if_neg (he.2 d rfl)]
      exact ih (fun e hm => hpre e (List.mem_cons_of_mem _ hm))

theorem bybit_await_no_match (op reqId : String) (deadline : Nat)
    (evs : List (Nat × Option BybitMsg))
    (h : ∀ e ∈ evs, deadline ≤ e.1 ∨ ∀ m, e.2 = some m → m.reqId ≠ some reqId) :
    bybit_await op reqId deadline evs = .timeout := by
  induction evs with
  | nil => rfl
  | cons e rest ih =>
    obtain ⟨t, m⟩ := e
    by_cases hle : deadline ≤ t
    · simp only [bybit_await]
      rw [if_pos hle]
    · rcases h (t, m) (List.mem_cons_self _ _) with hc | hc
      · exact absurd hc hle
      · cases m with
        | none =>
          simp only [bybit_await]
          rw [if_neg hle]
          exact ih (fun e hm => h e (List.mem_cons_of_mem _ hm))
        | some d =>
          simp only [bybit_await]
          rw [if_neg hle, if_neg (hc d rfl)]
          exact ih (fun e hm => h e (List.mem_cons_of_mem _ hm))

/-- C8, counterexample: two Bybit rejections that differ only in the
exchange's `retCode` produce the very same failure — the raised error
carries the op and the exchange message but not the code, contradicting
"fail with OrderRejected carrying the exchange's code and message". -/
theorem C8_counterexample :
    bybit_await "order.create" "r1" 30
        [(0, some ⟨some "r1", some 10001, "dup", []⟩)] =
      .rejected "order.create" "dup" ∧
    bybit_await "order.create" "r1" 30
        [(0, some ⟨some "r1", some 10002, "dup", []⟩)] =
      .rejected "order.create" "dup" := by decide

/-- C8, amended: during the correlation wait with the fixed deadline of 30
seconds from the send, both clients skip every frame whose response id
differs from the just-sent request id (and every unparseable frame); a
matching response with a non-success status fails — carrying the exchange's
code and message on Binance, but only the op and the exchange's message on
Bybit; and if every frame is non-matching or arrives at or past the
deadline, the call fails with a timeout. -/
theorem C8_amended (reqId op : String) (send : Nat) :
    ((∀ pre evs, (∀ e ∈ pre, e.1 < request_deadline send ∧
        ∀ m, e.2 = some m → m.id ≠ some reqId) →
      binance_await reqId (request_deadline send) (pre ++ evs) =
        binance_await reqId (request_deadline send) evs) ∧
    (∀ t d rest, t < request_deadline send → d.id = some reqId →
      d.status ≠ some 200 →
      binance_await reqId (request_deadline send) ((t, some d) :: rest) =
        .rejected d.errCode d.errMsg) ∧
    (∀ evs, (∀ e ∈ evs, request_deadline send ≤ e.1 ∨
        ∀ m, e.2 = some m → m.id ≠ some reqId) →
      binance_await reqId (request_deadline send) evs = .timeout)) ∧
    ((∀ pre evs, (∀ e ∈ pre, e.1 < request_deadline send ∧
        ∀ m, e.2 = some m → m.reqId ≠ some reqId) →
      bybit_await op reqId (request_deadline send) (pre ++ evs) =
        bybit_await op reqId (request_deadline send) evs) ∧
    (∀ t d rest, t < request_deadline send → d.reqId = some reqId →
      d.retCode ≠ some 0 →
      bybit_await op reqId (request_deadline send) ((t, some d) :: rest) =
        .rejected op d.retMsg) ∧
    (∀ evs, (∀ e ∈ evs, request_deadline send ≤ e.1 ∨
        ∀ m, e.2 = some m → m.reqId ≠ some reqId) →
      bybit_await op reqId (request_deadline send) evs = .timeout)) := by
  refine ⟨⟨binance_await_skip reqId _, fun t d rest ht hid hst => ?_,
      binance_await_no_match reqId _⟩,
    ⟨bybit_await_skip op reqId _, fun t d rest ht hid hst => ?_,
      bybit_await_no_match op reqId _⟩⟩
  · simp only [binance_await]
    rw [if_neg (Nat.not_le.mpr ht), if_pos hid, if_pos hst]
  · simp only [bybit_await]
    rw [if_neg (Nat.not_le.mpr ht), if_pos hid, if_pos hst]

/-- Witness for C8: a concrete Binance rejection with the exchange's code
and message, after one skipped unrelated frame. -/
theorem C8_amended_witness :
    binance_await "r1" (request_deadline 0)
        [(5, some ⟨some "r1", some 400, some (-1013), "Filter failure", []⟩)] =
      .rejected (some (-1013)) "Filter failure" :=
  (C8_amended "r1" "order.create" 0).1.2.1 5
    ⟨some "r1", some 400, some (-1013), "Filter failure", []⟩ []
    (by decide) (by decide) (by decide)

/-- C9, counterexample: `"abc"` is not a numeric string, yet both codecs
happily construct the transport message: the Binance parameter mapping and
the Bybit argument dict both carry quantity `"abc"` — construction does not
fail, contradicting "constructing an order request fails whenever quantity
... is not a numeric string". -/
theorem C9_counterexample :
    is_numeric_string "abc" = false ∧
    dict_lookup (build_order_params "BTCUSDT" "BUY" "MARKET" "abc" none none false
        none none 5000 1700000000000) "quantity" = some (.s "abc") ∧
    dict_lookup (bybit_market_args "BTCUSDT" "BUY" "abc" "linear" false none none)
        "qty" = some (.s "abc") := by decide

/-- C9, amended: neither codec variant validates quantity or price at all:
construction is total and embeds the given quantity (and limit price)
verbatim in the transport message, for arbitrary strings; rejection of
non-numeric values is left to the exchange (the Order Runner separately
drops records whose quantity field is missing or falsy). -/
theorem C9_amended (symbol side order_type quantity : String)
    (price time_in_force : Option String) (reduce_only : Bool)
    (position_side new_client_order_id : Option String) (recv_window timestamp : Int)
    (qcategory ltif lprice : String) (position_idx : Option Int)
    (order_link_id : Option String) :
    dict_lookup (build_order_params symbol side order_type quantity price time_in_force
        reduce_only position_side new_client_order_id recv_window timestamp)
      "quantity" = some (.s quantity) ∧
    dict_lookup (bybit_market_args symbol side quantity qcategory reduce_only
        position_idx order_link_id) "qty" = some (.s quantity) ∧
    dict_lookup (bybit_limit_args symbol side quantity lprice qcategory ltif reduce_only
        position_idx order_link_id) "qty" = some (.s quantity) ∧
    dict_lookup (bybit_limit_args symbol side quantity lprice qcategory ltif reduce_only
        position_idx order_link_id) "price" = some (.s lprice) :=
  ⟨rfl, rfl, rfl, rfl⟩
